import Mathlib

/-!
Shallow embedding of the resilient content-acquisition subsystem of
`py-lead-generate` (files `modules/proxy.py`, `modules/scrapper.py`,
`utils/helpers.py`, `constants/config.py`), together with theorems settling
the specification claims about it.

Modelling conventions:
* Python strings are Lean `String`s; `str.lower()` is `pyLower`,
  `str.strip()` is `String.trim`, slicing `s[:n]` is `takeChars`,
  `needle in hay` is `strHasSub`.
* CSV rows read by `csv.DictReader` are `Row` records whose fields are
  `Option String`; `none` models an absent column (so `row.get(k, d)`
  becomes `(·.k).getD d`).
* Python's stable `list.sort(key=...)` is `List.insertionSort` with the
  corresponding non-strict relation (any two stable sorts of a list with
  respect to a total preorder agree, so this is extensionally faithful).
* `random.choice(l)` is `pyChoice l i` for an arbitrary index `i` supplied
  by the caller; `random.random() < 0.8` is an arbitrary `Bool` supplied by
  the caller.  Theorems quantify over these oracle inputs.
* The HTTP layer inside `ProxyManager.fetch` is an oracle
  `net : Nat -> String -> HttpResult` giving, per attempt index and chosen
  proxy URL, either a response (status, body) or a transport-level
  exception.
* The filesystem holding the proxy catalogue is a `World` with an optional
  list of rows; exceptions raised and caught in the Python code are
  modelled with `Option`.
-/

/-! ### Python string primitives -/

/-- Character-list version of Python `hay.startswith(needle)`. -/
def charsHasPre : List Char → List Char → Bool
  | [], _ => true
  | _ :: _, [] => false
  | a :: as, b :: bs => a == b && charsHasPre as bs

/-- Character-list version of Python `needle in hay`. -/
def charsHasSub (needle : List Char) : List Char → Bool
  | [] => charsHasPre needle []
  | b :: bs => charsHasPre needle (b :: bs) || charsHasSub needle bs

/-- Python `needle in hay` on strings. -/
def strHasSub (hay needle : String) : Bool :=
  charsHasSub needle.data hay.data

/-- Python `s.lower()` (ASCII-adequate for every phrase this code compares). -/
def pyLower (s : String) : String :=
  ⟨s.data.map Char.toLower⟩

/-- Python `s.strip()`: drop leading and trailing whitespace. -/
def pyStrip (s : String) : String :=
  ⟨(((s.data.dropWhile Char.isWhitespace).reverse).dropWhile
      Char.isWhitespace).reverse⟩

/-- Python `s[:n]` on strings (character slicing). -/
def takeChars (s : String) (n : Nat) : String :=
  ⟨s.data.take n⟩

/-- Whitespace-run splitting on character lists (`acc` is the current word,
reversed). -/
def splitWSChars : List Char → List Char → List String
  | [], acc => if acc = [] then [] else [⟨acc.reverse⟩]
  | c :: cs, acc =>
      if c.isWhitespace then
        if acc = [] then splitWSChars cs []
        else (⟨acc.reverse⟩ : String) :: splitWSChars cs []
      else splitWSChars cs (c :: acc)

/-- Python `s.split()`: split on whitespace runs, dropping empty pieces. -/
def pySplitWS (s : String) : List String :=
  splitWSChars s.data []

/-- One fuel-driven step list for Python `s.replace(needle, "")`:
left-to-right scan, skipping each non-overlapping occurrence. -/
def charsReplGo (needle : List Char) : Nat → List Char → List Char
  | 0, l => l
  | _ + 1, [] => []
  | fuel + 1, c :: cs =>
      if charsHasPre needle (c :: cs) then
        charsReplGo needle fuel (cs.drop (needle.length - 1))
      else c :: charsReplGo needle fuel cs

/-- Python `s.replace(needle, "")` for a non-empty needle. -/
def pyReplaceDel (s needle : String) : String :=
  ⟨charsReplGo needle.data s.data.length s.data⟩

/-- Python `s.split(":")` on character lists (empty pieces kept). -/
def charsSplitColon : List Char → List Char → List String
  | [], acc => [⟨acc.reverse⟩]
  | c :: cs, acc =>
      if c = ':' then (⟨acc.reverse⟩ : String) :: charsSplitColon cs []
      else charsSplitColon cs (c :: acc)

/-- Python `" ".join(l)`. -/
def joinSpace : List String → String
  | [] => ""
  | [x] => x
  | x :: xs => x ++ " " ++ joinSpace xs

/-! ### `utils/helpers.py` and `constants/config.py` -/

/-- `constants/config.py`: `KEYWORDS`. -/
def KEYWORDS : List String :=
  ["services", "CEO", "founder", "clients", "products", "solutions", "funding"]

/-- `is_search_blocked`'s fixed block-indicator list. -/
def blockIndicators : List String :=
  ["unfortunately, bots use duckduckgo too",
   "please complete the following challenge",
   "select all squares containing a duck",
   "anomaly-modal__puzzle",
   "error-lite@duckduckgo.com",
   "cloudflare",
   "captcha"]

/-- `utils/helpers.py` `is_search_blocked`: `False` on falsy input, else any
block indicator occurs in the lowercased body. -/
def is_search_blocked (html : String) : Bool :=
  if html = "" then false
  else blockIndicators.any (fun i => strHasSub (pyLower html) i)

/-- `is_navigational_content`'s boilerplate-phrase alternatives (the regex
`click here|privacy|terms|login|subscribe|©|all rights reserved`, case
insensitive). -/
def navPhrases : List String :=
  ["click here", "privacy", "terms", "login", "subscribe", "©",
   "all rights reserved"]

/-- `utils/helpers.py` `is_navigational_content(text, min_words=5)`. -/
def is_navigational_content (text : String) (min_words : Nat) : Bool :=
  if (pySplitWS text).length < min_words then false
  else navPhrases.any (fun p => strHasSub (pyLower text) p)

/-- `utils/helpers.py` `contains_keywords(text, keywords=KEYWORDS)`.  The
source's `text.lower() if not text.islower() else text` is semantically
`text.lower()` (when `islower()` holds, lowering is the identity). -/
def contains_keywords (text : String) : Bool :=
  KEYWORDS.any (fun k => strHasSub (pyLower text) (pyLower k))

/-! ### `modules/proxy.py`: data model -/

/-- One catalogue row as produced by `csv.DictReader` over the catalogue
header `ip, port, country, city, isp, response_time_ms, status, tested_at`.
`none` models a column absent from the file (so `row.get(key, default)` is
`getD`). -/
structure Row where
  ip : Option String
  port : Option String
  country : Option String
  city : Option String
  isp : Option String
  response_time_ms : Option String
  status : Option String
  tested_at : Option String
deriving DecidableEq, Repr

/-- One in-memory proxy record (an element of `ProxyManager.proxy_data`):
a dict with the listed keys, plus the raw catalogue row (`none` for
fallback-sourced records). -/
structure Entry where
  url : String
  ip : String
  port : String
  country : String
  city : String
  isp : String
  response_time_ms : ℚ
  status : String
  tested_at : String
  row : Option Row
deriving DecidableEq, Repr

/-- `ProxyManager.stats`. -/
structure Stats where
  total_requests : Nat
  successful_requests : Nat
  failed_requests : Nat
  proxies_marked_bad : Nat
deriving DecidableEq, Repr

/-- The mutable fields of a `ProxyManager` relevant to the claims
(`csv_path`, `min_proxies_threshold` and `using_csv` only feed log
messages). `bad_proxies` is Python's set of quarantined proxy URLs,
modelled as a duplicate-free-by-construction list. -/
structure ProxyState where
  max_retries : Nat
  proxy_data : List Entry
  proxies : List String
  bad_proxies : List String
  stats : Stats
deriving DecidableEq, Repr

/-- The filesystem as far as this component sees it: the proxy catalogue
file, when present, as its list of data rows. -/
structure World where
  catalogue : Option (List Row)
deriving DecidableEq, Repr

/-! ### `modules/proxy.py`: catalogue loading -/

/-- Numeric value of a list of decimal digits. -/
def decDigitsVal (l : List Char) : Nat :=
  l.foldl (fun a c => a * 10 + (c.toNat - 48)) 0

/-- Split a character list at the first `'.'`, if any. -/
def splitAtDot (l : List Char) : List Char × Option (List Char) :=
  match l.span (fun c => c ≠ '.') with
  | (a, []) => (a, none)
  | (a, _ :: rest) => (a, some rest)

/-- Python `float(s)` on the plain decimal literals the catalogue holds
(optional sign, digits, at most one dot, surrounding whitespace); `none`
models the `ValueError` that any other string raises.  (Scientific
notation and the `inf`/`nan` spellings are outside the modelled
fragment.) -/
def parseFloat? (s : String) : Option ℚ :=
  let t := (pyStrip s).data
  let neg := t.head? = some '-'
  let t := if t.head? = some '-' || t.head? = some '+' then t.tail else t
  match splitAtDot t with
  | (ip, none) =>
      if ip ≠ [] && ip.all Char.isDigit then
        some (if neg then -((decDigitsVal ip : Nat) : ℚ)
              else ((decDigitsVal ip : Nat) : ℚ))
      else none
  | (ip, some fp) =>
      if (ip ≠ [] || fp ≠ []) && ip.all Char.isDigit && fp.all Char.isDigit then
        some (if neg then -(mkRat (decDigitsVal (ip ++ fp)) (10 ^ fp.length))
              else mkRat (decDigitsVal (ip ++ fp)) (10 ^ fp.length))
      else none

/-- `row.get('ip', '').strip()`. -/
def rowIp (r : Row) : String := pyStrip (r.ip.getD "")

/-- `row.get('port', '').strip()`. -/
def rowPort (r : Row) : String := pyStrip (r.port.getD "")

/-- `row.get('status', 'working').strip()`. -/
def rowStatus (r : Row) : String := pyStrip (r.status.getD "working")

/-- `if ip and port and status == 'working'`. -/
def rowEligible (r : Row) : Bool :=
  rowIp r ≠ "" && rowPort r ≠ "" && rowStatus r == "working"

/-- `float(row.get('response_time_ms', 0))`, evaluated only on eligible
rows; `none` models the raised `ValueError`. -/
def rowLatency? (r : Row) : Option ℚ :=
  match r.response_time_ms with
  | none => some 0
  | some s => parseFloat? s

/-- The dict appended to `proxy_data` for an eligible catalogue row. -/
def entryOfRow (r : Row) (q : ℚ) : Entry :=
  { url := "socks5://" ++ rowIp r ++ ":" ++ rowPort r
    ip := rowIp r
    port := rowPort r
    country := r.country.getD "Unknown"
    city := r.city.getD "Unknown"
    isp := r.isp.getD "Unknown"
    response_time_ms := q
    status := rowStatus r
    tested_at := r.tested_at.getD ""
    row := some r }

/-- The row-reading loop of `_load_proxies`: skip ineligible rows, build an
entry per eligible row; `none` models an exception (unparseable
`response_time_ms`), which the surrounding `try` turns into the fallback
list. -/
def readEntries : List Row → Option (List Entry)
  | [] => some []
  | r :: rs =>
      if rowEligible r then
        match rowLatency? r with
        | none => none
        | some q => (readEntries rs).map (fun l => entryOfRow r q :: l)
      else readEntries rs

/-- Modelled from the spec: `constants/proxy.py` (the built-in fallback
list `PROXIES`) is not under `src/`; the spec describes it as "a built-in
list" of SOCKS5 endpoints used when the catalogue is missing, empty of
eligible rows, or unreadable. -/
def PROXIES : List String :=
  ["socks5://192.111.137.34:18765",
   "socks5://184.178.172.25:15291",
   "socks5://72.195.34.58:4145"]

/-- `_load_fallback_proxies` applied to one constant:
`parts = url.replace("socks5://", "").split(":")`, kept only when it has
exactly two parts. -/
def fallbackEntryOf (u : String) : Option Entry :=
  match charsSplitColon (pyReplaceDel u "socks5://").data [] with
  | [a, b] =>
      some { url := u, ip := a, port := b, country := "Unknown",
             city := "Unknown", isp := "Unknown", response_time_ms := 0,
             status := "working", tested_at := "", row := none }
  | _ => none

/-- `ProxyManager._load_fallback_proxies`. -/
def fallbackEntries : List Entry :=
  PROXIES.filterMap fallbackEntryOf

/-- The relation `key=lambda x: x['response_time_ms']` sorts by. -/
def latLe (a b : Entry) : Prop :=
  a.response_time_ms ≤ b.response_time_ms

instance : DecidableRel latLe := fun a b =>
  inferInstanceAs (Decidable (a.response_time_ms ≤ b.response_time_ms))

instance : IsTotal Entry latLe :=
  ⟨fun a b => le_total a.response_time_ms b.response_time_ms⟩

instance : IsTrans Entry latLe :=
  ⟨fun _ _ _ hab hbc => le_trans hab hbc⟩

/-- `ProxyManager._load_proxies`, parameterized by the catalogue file
contents: missing file, read/parse exception, and zero eligible rows all
degrade to the fallback list; otherwise the eligible entries sorted
ascending by latency (Python's stable sort). -/
def loadProxies (cat : Option (List Row)) : List Entry :=
  match cat with
  | none => fallbackEntries
  | some rows =>
      match readEntries rows with
      | none => fallbackEntries
      | some [] => fallbackEntries
      | some l => l.insertionSort latLe

/-- `ProxyManager.__init__(csv_path, max_retries, min_proxies_threshold)`,
with the filesystem's view of `csv_path` passed explicitly. -/
def initManager (maxRetries : Nat) (cat : Option (List Row)) : ProxyState :=
  let pd := loadProxies cat
  { max_retries := maxRetries
    proxy_data := pd
    proxies := pd.map (fun p => p.url)
    bad_proxies := []
    stats := ⟨0, 0, 0, 0⟩ }

/-! ### `modules/proxy.py`: selection, quarantine, persistence -/

/-- `random.choice(l)` given an oracle index (`none` on the empty list,
where Python would raise `IndexError` — reachable only outside the
maintained `proxies`/`proxy_data` sync invariant). -/
def pyChoice {α : Type} (l : List α) (i : Nat) : Option α :=
  l.get? (i % l.length)

/-- `ProxyManager.get_proxy(prefer_fast)`.  `rb` is the oracle for
`random.random() < 0.8` and `ix` the oracle index for `random.choice`;
the returned state reflects the self-clearing of `bad_proxies` when every
endpoint is quarantined. -/
def get_proxy (st : ProxyState) (prefer_fast rb : Bool) (ix : Nat) :
    Option String × ProxyState :=
  if st.proxies = [] then (none, st)
  else
    let avail0 := st.proxy_data.filter (fun p => !(st.bad_proxies.contains p.url))
    let avail := if avail0 = [] then st.proxy_data else avail0
    let bad' := if avail0 = [] then [] else st.bad_proxies
    let chosen :=
      if prefer_fast then
        if rb then pyChoice (avail.take (max 1 (avail.length / 3))) ix
        else pyChoice avail ix
      else pyChoice avail ix
    (chosen.map (fun e => e.url), { st with bad_proxies := bad' })

/-- The status overwrite `_save_proxies_to_csv` performs on every entry of
`proxies_with_csv_data` whose URL is quarantined (the dicts are shared
with `proxy_data`, so this mutates the directory too). -/
def applySaveStatus (bad : List String) (l : List Entry) : List Entry :=
  l.map (fun e =>
    if e.row.isSome && bad.contains e.url then
      { e with status := "failed",
               row := e.row.map (fun r => { r with status := some "failed" }) }
    else e)

/-- `ProxyManager._save_proxies_to_csv`: no-op returning `False` when no
record has catalogue provenance; otherwise updates quarantined records'
statuses and atomically rewrites the catalogue with exactly the raw rows
of catalogue-provenance records.  (The backup copy and temp file are
below the granularity of `World`.) -/
def saveProxiesToCsv (st : ProxyState) (w : World) : ProxyState × World × Bool :=
  if st.proxy_data.filter (fun p => p.row.isSome) = [] then (st, w, false)
  else
    let pd := applySaveStatus st.bad_proxies st.proxy_data
    let rows := pd.filterMap (fun p => p.row)
    ({ st with proxy_data := pd }, { catalogue := some rows }, true)

/-- The `for p in self.proxy_data: if p['url'] == proxy: ... break` search
followed by the in-place status mutation: only the first entry with the
given URL is flipped to `failed` (together with its raw row). -/
def updateFirstEntry (p : String) : List Entry → List Entry
  | [] => []
  | e :: es =>
      if e.url = p then
        { e with status := "failed",
                 row := e.row.map (fun r => { r with status := some "failed" }) } :: es
      else e :: updateFirstEntry p es

/-- `ProxyManager.mark_proxy_bad(proxy)`.  Returns the new state, the new
world, and whether `_save_proxies_to_csv` was invoked. -/
def mark_proxy_bad (st : ProxyState) (w : World) (p : String) :
    ProxyState × World × Bool :=
  if p = "" || st.bad_proxies.contains p then (st, w, false)
  else
    let fe := st.proxy_data.find? (fun e => e.url == p)
    let pd := if fe.isSome then updateFirstEntry p st.proxy_data else st.proxy_data
    let st1 : ProxyState :=
      { st with
        proxy_data := pd
        bad_proxies := st.bad_proxies ++ [p]
        stats := { st.stats with
                   proxies_marked_bad := st.stats.proxies_marked_bad + 1 } }
    match fe with
    | some e =>
        if e.row.isSome then
          let s := saveProxiesToCsv st1 w
          (s.1, s.2.1, true)
        else (st1, w, false)
    | none => (st1, w, false)

/-- `ProxyManager.reload_proxies`: clear the quarantine set and rebuild
the directory from the catalogue file. -/
def reload_proxies (st : ProxyState) (w : World) : ProxyState :=
  let pd := loadProxies w.catalogue
  { st with bad_proxies := [], proxy_data := pd,
            proxies := pd.map (fun p => p.url) }

/-! ### `modules/proxy.py`: the fetch loop -/

/-- What one `requests.get` through a proxy produces: a response, or one
of the transport-level exceptions (`ProxyError`/`Timeout`/
`ConnectionError`/other) — all handlers quarantine and continue, so one
constructor suffices. -/
inductive HttpResult where
  | response (status : Nat) (body : String)
  | transportError
deriving DecidableEq, Repr

/-- The terminal outcome of `ProxyManager.fetch`: the returned body, or
the two `ProxyFailureError` raises (no proxy available vs. retry budget
exhausted). -/
inductive FetchOutcome where
  | success (body : String)
  | noProxies
  | exhausted
deriving DecidableEq, Repr

/-- `"duckduckgo.com" in url.lower()`. -/
def isDuckDuckGoUrl (url : String) : Bool :=
  strHasSub (pyLower url) "duckduckgo.com"

def incTotal (st : ProxyState) : ProxyState :=
  { st with stats := { st.stats with
      total_requests := st.stats.total_requests + 1 } }

def incSucc (st : ProxyState) : ProxyState :=
  { st with stats := { st.stats with
      successful_requests := st.stats.successful_requests + 1 } }

def incFailed (st : ProxyState) : ProxyState :=
  { st with stats := { st.stats with
      failed_requests := st.stats.failed_requests + 1 } }

/-- The `for attempt in range(self.max_retries)` loop of
`ProxyManager.fetch`, with `a` the current attempt index and the second
`Nat` the remaining attempts.  `net` is the HTTP oracle and `rand` the
per-attempt selection-randomness oracle. -/
def fetchLoop (url : String) (net : Nat → String → HttpResult)
    (rand : Nat → Bool × Nat) (prefer_fast : Bool) :
    Nat → Nat → ProxyState → World → FetchOutcome × ProxyState × World
  | _, 0, st, w => (.exhausted, incFailed st, w)
  | a, n + 1, st, w =>
      let g := get_proxy st prefer_fast (rand a).1 (rand a).2
      match g.1 with
      | none => (.noProxies, incFailed g.2, w)
      | some p =>
          if p = "" then (.noProxies, incFailed g.2, w)
          else
            match net a p with
            | .transportError =>
                let m := mark_proxy_bad g.2 w p
                fetchLoop url net rand prefer_fast (a + 1) n m.1 m.2.1
            | .response status body =>
                if status ≠ 200 then
                  let m := mark_proxy_bad g.2 w p
                  fetchLoop url net rand prefer_fast (a + 1) n m.1 m.2.1
                else if isDuckDuckGoUrl url && is_search_blocked body then
                  let m := mark_proxy_bad g.2 w p
                  fetchLoop url net rand prefer_fast (a + 1) n m.1 m.2.1
                else (.success body, incSucc g.2, w)

/-- `ProxyManager.fetch(url, prefer_fast)`: bump the total-request counter
then run up to `max_retries` attempts. -/
def fetch (url : String) (net : Nat → String → HttpResult)
    (rand : Nat → Bool × Nat) (prefer_fast : Bool)
    (st : ProxyState) (w : World) : FetchOutcome × ProxyState × World :=
  fetchLoop url net rand prefer_fast 0 st.max_retries (incTotal st) w

/-! ### `modules/scrapper.py`: link extraction -/

/-- One anchor element matched by the result selectors: its `href`
attribute (`none` when absent) and the texts `get_text(strip=True)`
produces for it and for its following anchor (the snippet source,
`""` when there is no following anchor). -/
structure Anchor where
  href : Option String
  title : String
  snippet : String
deriving DecidableEq, Repr

/-- A parsed search-results page: the raw text (for the block check) and
the anchor lists the two CSS selectors `a.result__a` and
`.result__body a.result__a` yield. -/
structure SearchHtml where
  raw : String
  anchorsA : List Anchor
  anchorsB : List Anchor
deriving Repr

/-- One element of `extract_links`' output:
`{"url": ..., "title": ..., "snippet": ...}`. -/
structure LinkEntry where
  url : String
  title : String
  snippet : String
deriving DecidableEq, Repr

/-- `results = soup.select("a.result__a") or soup.select(".result__body a.result__a")`. -/
def searchAnchors (h : SearchHtml) : List Anchor :=
  if h.anchorsA ≠ [] then h.anchorsA else h.anchorsB

/-- The per-anchor step: `continue` on a falsy `href`, else build the
entry. `resolveUrl` stands for `utils.helpers.extract_real_url` (the
redirect-wrapper decoding is orthogonal to every claim about this
function, so it is kept as an explicit parameter). -/
def anchorEntry? (resolveUrl : String → String) (a : Anchor) : Option LinkEntry :=
  if a.href.getD "" = "" then none
  else some ⟨resolveUrl (a.href.getD ""), a.title, a.snippet⟩

/-- The anchor loop of `extract_links`: append, then break once
`len(out) >= max_links`. -/
def extractLinksGo (resolveUrl : String → String) (maxLinks : Nat) :
    List Anchor → List LinkEntry → List LinkEntry
  | [], out => out
  | a :: rest, out =>
      match anchorEntry? resolveUrl a with
      | none => extractLinksGo resolveUrl maxLinks rest out
      | some e =>
          let out' := out ++ [e]
          if maxLinks ≤ out'.length then out'
          else extractLinksGo resolveUrl maxLinks rest out'

/-- `Scraper.extract_links(html, max_links)`. -/
def extract_links (resolveUrl : String → String) (h : SearchHtml)
    (maxLinks : Nat) : List LinkEntry :=
  if h.raw = "" || is_search_blocked h.raw then []
  else extractLinksGo resolveUrl maxLinks (searchAnchors h) []

/-- The full document-order entry list an unbounded extraction would
produce (the blocked/empty check included). -/
def docEntries (resolveUrl : String → String) (h : SearchHtml) : List LinkEntry :=
  if h.raw = "" || is_search_blocked h.raw then []
  else (searchAnchors h).filterMap (anchorEntry? resolveUrl)

/-! ### `modules/scrapper.py`: content extraction -/

/-- A fetched page as `extract_relevant_content` consumes it: its raw text
(for the `if not html` falsiness check) and, per CSS selector string, the
ordered `get_text(strip=True)` results of `soup.select(selector)`. -/
structure PageHtml where
  raw : String
  select : String → List String

/-- `content_selectors` from `extract_relevant_content`. -/
def contentSelectors : List String :=
  ["main p, main div",
   "article p, article div",
   ".content p, .content div, .main-content p, .main-content div",
   "p, div"]

/-- The per-fragment filter in `extract_relevant_content`'s inner loop:
not empty/shorter than 10 characters, not navigational, and containing a
topical keyword (the source lowercases once and passes the lowered text to
`contains_keywords`). -/
def fragOk (t : String) : Bool :=
  !(t = "" || t.length < 10) &&
    !(is_navigational_content t 5 || !contains_keywords (pyLower t))

/-- The inner fragment loop: skip filtered or already-seen texts,
accumulate until the character budget is reached. Returns the accumulated
texts, seen-set and running length. -/
def extractInner (maxChars : Nat) :
    List String → List String → List String → Nat →
    List String × List String × Nat
  | [], acc, seen, total => (acc, seen, total)
  | t :: ts, acc, seen, total =>
      if !fragOk t then extractInner maxChars ts acc seen total
      else if seen.contains t then extractInner maxChars ts acc seen total
      else
        let acc' := acc ++ [t]
        let seen' := seen ++ [t]
        let total' := total + t.length
        if maxChars ≤ total' then (acc', seen', total')
        else extractInner maxChars ts acc' seen' total'

/-- The outer selector cascade (the source's loop-head budget check and
its post-inner `break` coincide in effect with checking at the head). -/
def extractOuter (h : PageHtml) (maxChars : Nat) :
    List String → List String → List String → Nat → List String
  | [], acc, _, _ => acc
  | sel :: sels, acc, seen, total =>
      if maxChars ≤ total then acc
      else
        let r := extractInner maxChars (h.select sel) acc seen total
        extractOuter h maxChars sels r.1 r.2.1 r.2.2

/-- `Scraper.extract_relevant_content(html, max_chars=2000)`. -/
def extract_relevant_content (h : PageHtml) (maxChars : Nat) : String :=
  if h.raw = "" then ""
  else
    let useful := extractOuter h maxChars contentSelectors [] [] 0
    let result := joinSpace useful
    if maxChars < result.length then takeChars result maxChars else result

/-! ### `modules/scrapper.py`: concurrent scraping -/

/-- One element of `scrape_links_content`'s output. -/
structure ScrapedPage where
  url : String
  title : String
  snippet : String
  content : String
deriving DecidableEq, Repr

/-- `Scraper._scrape_single_link(link)`.  `env` is the network/parsing
oracle standing for `_fetch_with_session` plus BeautifulSoup: it yields
the fetched page for a URL, with `raw = ""` for every failure mode
(non-200 status, oversized declared content length, timeout after retry,
any other exception — all of which make `_fetch_with_session` return
`""`).  `none` is "no page produced". -/
def scrapeSingleLink (env : String → PageHtml) (l : LinkEntry) :
    Option ScrapedPage :=
  let html := env l.url
  if html.raw = "" then none
  else
    let content := extract_relevant_content html 2000
    if content = "" then none
    else some ⟨l.url, l.title, l.snippet, content⟩

/-- `Scraper.scrape_links_content(links, max_workers)`.  The thread pool
is fanned in as the tasks complete; since every claim about the output is
invariant under permutation, the gather order is modelled as submission
order.  The worker bound `min(max_workers, len(links))` does not affect
which pages are produced. -/
def scrape_links_content (env : String → PageHtml) (links : List LinkEntry)
    (maxWorkers : Nat) : List ScrapedPage :=
  if links = [] then []
  else
    let _workers := min maxWorkers links.length
    links.filterMap (scrapeSingleLink env)

/-! ### Shared fixtures for witnesses -/

/-- A catalogue row fixture (latency 50 ms). -/
def exRow1 : Row :=
  ⟨some "1.1.1.1", some "1080", some "US", some "Austin", some "ISP-A",
   some "50", some "working", some "2024-01-01"⟩

/-- A catalogue row fixture (latency 10 ms). -/
def exRow2 : Row :=
  ⟨some "2.2.2.2", some "1081", some "DE", some "Berlin", some "ISP-B",
   some "10", some "working", some "2024-01-02"⟩

/-- A fallback-provenance entry fixture (no raw catalogue row). -/
def exFallbackEntry : Entry :=
  { url := "socks5://9.9.9.9:1080", ip := "9.9.9.9", port := "1080",
    country := "Unknown", city := "Unknown", isp := "Unknown",
    response_time_ms := 0, status := "working", tested_at := "", row := none }

/-- A single-endpoint directory state over `exFallbackEntry`. -/
def exState : ProxyState :=
  { max_retries := 3
    proxy_data := [exFallbackEntry]
    proxies := ["socks5://9.9.9.9:1080"]
    bad_proxies := []
    stats := ⟨0, 0, 0, 0⟩ }

/-- A scraping environment fixture: every URL yields a page whose last
selector tier holds one qualifying fragment. -/
def exScrapeEnv : String → PageHtml :=
  fun _ => ⟨"<html>",
    fun sel => if sel = "p, div"
      then ["Our CEO provides services to clients worldwide"] else []⟩

/-- A link fixture. -/
def exLink : LinkEntry := ⟨"http://a.example", "T", "S"⟩

/-- The page `exScrapeEnv` produces for `exLink`. -/
def exPage : ScrapedPage :=
  ⟨"http://a.example", "T", "S",
   "Our CEO provides services to clients worldwide"⟩

/-! ### General lemmas -/

theorem length_takeChars (s : String) (n : Nat) :
    (takeChars s n).length = min n s.length :=
  List.length_take n s.data

theorem extract_relevant_content_length_le (h : PageHtml) (m : Nat) :
    (extract_relevant_content h m).length ≤ m := by
  unfold extract_relevant_content
  dsimp only
  split
  · exact Nat.zero_le m
  · split
    · rw [length_takeChars]
      exact Nat.min_le_left _ _
    · omega

/-! ### Claim C10 -/

/-- C10: a text fragment with fewer than 5 whitespace-separated words is
never classified as navigational by `is_navigational_content`, so inside
`extract_relevant_content` such a fragment is kept out only by the
10-character minimum and the topical-keyword filter: its per-fragment
qualification test reduces exactly to those two conditions. -/
theorem short_fragment_not_navigational (t : String)
    (h : (pySplitWS t).length < 5) :
    is_navigational_content t 5 = false ∧
      fragOk t = (decide (10 ≤ t.length) && contains_keywords (pyLower t)) := by
  have hnav : is_navigational_content t 5 = false := by
    unfold is_navigational_content
    simp [h]
  refine ⟨hnav, ?_⟩
  unfold fragOk
  rw [hnav]
  by_cases h10 : 10 ≤ t.length
  · have hlt : ¬ t.length < 10 := by omega
    have hne : t ≠ "" := by
      intro he
      rw [he] at h10
      simp at h10
    simp [hlt, hne, h10]
  · have hlt : t.length < 10 := by omega
    simp [hlt, h10]

/-- C10 witness: "privacy login CEO" has 3 words, contains the boilerplate
phrase "privacy", yet is not navigational, and its qualification test is
exactly the length/keyword pair (here: true). -/
theorem short_fragment_not_navigational_witness :
    (pySplitWS "privacy login CEO").length < 5 ∧
      (is_navigational_content "privacy login CEO" 5 = false ∧
        fragOk "privacy login CEO" =
          (decide (10 ≤ ("privacy login CEO" : String).length) &&
            contains_keywords (pyLower "privacy login CEO"))) :=
  ⟨by decide, short_fragment_not_navigational "privacy login CEO" (by decide)⟩

/-! ### Claim C9 -/

/-- C9: every page `scrape_links_content` outputs corresponds by URL to an
input link, its content is at most 2000 characters (the configured
budget), and the output consists only of successfully scraped pages —
failed pages are dropped (`scrapeSingleLink` returning `none`), never
surfaced as errors. -/
theorem scrape_output_subset_and_bounded (env : String → PageHtml)
    (links : List LinkEntry) (maxWorkers : Nat) (p : ScrapedPage)
    (hp : p ∈ scrape_links_content env links maxWorkers) :
    (∃ l ∈ links, p.url = l.url ∧ scrapeSingleLink env l = some p) ∧
      p.content.length ≤ 2000 := by
  unfold scrape_links_content at hp
  split at hp
  · simp at hp
  · rw [List.mem_filterMap] at hp
    obtain ⟨l, hl, hsl⟩ := hp
    unfold scrapeSingleLink at hsl
    dsimp only at hsl
    have hcopy := hsl
    split at hcopy
    · simp at hcopy
    · split at hcopy
      · simp at hcopy
      · rw [Option.some_inj] at hcopy
        refine ⟨⟨l, hl, ?_, hsl⟩, ?_⟩
        · rw [← hcopy]
        · rw [← hcopy]
          exact extract_relevant_content_length_le _ _

/-- C9 witness: a concrete page whose fourth-cascade fragment qualifies is
scraped; it appears in the output with the input URL and bounded content. -/
theorem scrape_output_subset_and_bounded_witness :
    exPage ∈ scrape_links_content exScrapeEnv [exLink] 10 ∧
      ((∃ l ∈ [exLink], exPage.url = l.url ∧
          scrapeSingleLink exScrapeEnv l = some exPage) ∧
        exPage.content.length ≤ 2000) :=
  ⟨by decide,
   scrape_output_subset_and_bounded exScrapeEnv [exLink] 10 exPage (by decide)⟩

/-! ### Claim C4 -/

/-- The anchor loop computes a prefix of the document-order entry list:
it appends entries in document order and stops as soon as
`max maxLinks 1` entries are present (the `1` because the source checks
the cap only after appending). -/
theorem extractLinksGo_eq (resolveUrl : String → String) (maxLinks : Nat)
    (l : List Anchor) (out : List LinkEntry)
    (h : out.length < max maxLinks 1) :
    extractLinksGo resolveUrl maxLinks l out =
      out ++ (l.filterMap (anchorEntry? resolveUrl)).take
        (max maxLinks 1 - out.length) := by
  induction l generalizing out with
  | nil => simp [extractLinksGo]
  | cons a rest ih =>
      unfold extractLinksGo
      cases hae : anchorEntry? resolveUrl a with
      | none => simp [hae, ih out h]
      | some e =>
          simp only [hae]
          have hfm : (a :: rest).filterMap (anchorEntry? resolveUrl)
              = e :: rest.filterMap (anchorEntry? resolveUrl) := by
            simp [List.filterMap_cons, hae]
          by_cases hbr : maxLinks ≤ (out ++ [e]).length
          · have htake : max maxLinks 1 - out.length = 1 := by
              simp only [List.length_append, List.length_cons,
                List.length_nil] at hbr
              omega
            rw [if_pos hbr, htake, hfm]
            have ht : (e :: rest.filterMap (anchorEntry? resolveUrl)).take 1
                = [e] := rfl
            rw [ht]
          · have h' : (out ++ [e]).length < max maxLinks 1 := by
              simp only [List.length_append, List.length_cons,
                List.length_nil] at hbr ⊢
              omega
            rw [if_neg hbr, ih (out ++ [e]) h']
            obtain ⟨k, hk⟩ : ∃ k, max maxLinks 1 - out.length = k + 1 :=
              ⟨max maxLinks 1 - out.length - 1, by omega⟩
            have hsub : max maxLinks 1 - (out ++ [e]).length = k := by
              simp only [List.length_append, List.length_cons, List.length_nil]
              omega
            rw [hsub, hk, hfm]
            have ht : (e :: rest.filterMap (anchorEntry? resolveUrl)).take (k + 1)
                = e :: (rest.filterMap (anchorEntry? resolveUrl)).take k := rfl
            rw [ht]
            simp

/-- C4 counterexample: the claim fails at `maxLinks = 0` — the source
appends before checking the cap, so one valid anchor yields one entry,
exceeding the bound of zero. -/
theorem extract_links_cap_cex :
    ¬ ((extract_links (fun u => u)
        ⟨"x", [⟨some "u", "t", "s"⟩], []⟩ 0).length ≤ 0) := by
  decide

/-- C4 (amended: for `maxLinks ≥ 1`; at `maxLinks = 0` the source returns
one entry because it appends before checking the cap): `extract_links`
returns at most `maxLinks` entries, equal to the document-order prefix of
the valid-anchor entries (short-circuit), hence in document order (a
sublist of the full document entry list). -/
theorem extract_links_cap_and_order (resolveUrl : String → String)
    (h : SearchHtml) (maxLinks : Nat) (hm : 1 ≤ maxLinks) :
    (extract_links resolveUrl h maxLinks).length ≤ maxLinks ∧
      extract_links resolveUrl h maxLinks
        = (docEntries resolveUrl h).take maxLinks ∧
      (extract_links resolveUrl h maxLinks).Sublist
        (docEntries resolveUrl h) := by
  have hmax : max maxLinks 1 = maxLinks := by omega
  have heq : extract_links resolveUrl h maxLinks
      = (docEntries resolveUrl h).take maxLinks := by
    unfold extract_links docEntries
    by_cases hb : (h.raw = "" || is_search_blocked h.raw) = true
    · rw [if_pos hb, if_pos hb]
      simp
    · rw [if_neg hb, if_neg hb]
      have hlen0 : ([] : List LinkEntry).length < max maxLinks 1 := by
        simp only [List.length_nil]
        omega
      rw [extractLinksGo_eq resolveUrl maxLinks (searchAnchors h) [] hlen0]
      simp [hmax]
  refine ⟨?_, heq, ?_⟩
  · rw [heq, List.length_take]
    exact Nat.min_le_left _ _
  · rw [heq]
    exact List.take_sublist _ _

/-- C4 witness: with `maxLinks = 2` and three valid anchors, the cap,
prefix equation and document-order sublist property all hold. -/
theorem extract_links_cap_and_order_witness :
    (1 : Nat) ≤ 2 ∧
      ((extract_links (fun u => u)
          ⟨"x", [⟨some "u1", "t1", "s1"⟩, ⟨some "u2", "t2", "s2"⟩,
                 ⟨some "u3", "t3", "s3"⟩], []⟩ 2).length ≤ 2 ∧
        extract_links (fun u => u)
          ⟨"x", [⟨some "u1", "t1", "s1"⟩, ⟨some "u2", "t2", "s2"⟩,
                 ⟨some "u3", "t3", "s3"⟩], []⟩ 2
          = (docEntries (fun u => u)
              ⟨"x", [⟨some "u1", "t1", "s1"⟩, ⟨some "u2", "t2", "s2"⟩,
                     ⟨some "u3", "t3", "s3"⟩], []⟩).take 2 ∧
        (extract_links (fun u => u)
          ⟨"x", [⟨some "u1", "t1", "s1"⟩, ⟨some "u2", "t2", "s2"⟩,
                 ⟨some "u3", "t3", "s3"⟩], []⟩ 2).Sublist
          (docEntries (fun u => u)
            ⟨"x", [⟨some "u1", "t1", "s1"⟩, ⟨some "u2", "t2", "s2"⟩,
                   ⟨some "u3", "t3", "s3"⟩], []⟩)) :=
  ⟨by decide,
   extract_links_cap_and_order (fun u => u)
     ⟨"x", [⟨some "u1", "t1", "s1"⟩, ⟨some "u2", "t2", "s2"⟩,
            ⟨some "u3", "t3", "s3"⟩], []⟩ 2 (by decide)⟩

/-! ### Claim C1 -/

theorem pyChoice_isSome {α : Type} (l : List α) (hne : l ≠ []) (i : Nat) :
    (pyChoice l i).isSome := by
  unfold pyChoice
  have hlt : i % l.length < l.length := Nat.mod_lt i (List.length_pos.mpr hne)
  rw [List.get?_eq_get hlt]
  rfl

/-- C1: under the maintained invariant `proxies = map url proxy_data`
(established by `__init__` and `reload_proxies`, untouched elsewhere),
`get_proxy` returns `None` exactly when the directory's proxy list is
empty; and when the directory is non-empty but every endpoint is
quarantined, the quarantine set is cleared and a candidate is still
returned. -/
theorem get_proxy_none_iff (st : ProxyState) (prefer_fast rb : Bool) (ix : Nat)
    (hsync : st.proxies = st.proxy_data.map (fun p => p.url)) :
    ((get_proxy st prefer_fast rb ix).1 = none ↔ st.proxies = []) ∧
      (st.proxies ≠ [] →
        st.proxy_data.filter (fun p => !(st.bad_proxies.contains p.url)) = [] →
          ((get_proxy st prefer_fast rb ix).1.isSome ∧
            (get_proxy st prefer_fast rb ix).2.bad_proxies = [])) := by
  by_cases hp : st.proxies = []
  · constructor
    · unfold get_proxy
      rw [if_pos hp]
      simp [hp]
    · intro hne
      exact absurd hp hne
  · have hpd : st.proxy_data ≠ [] := by
      intro hnil
      rw [hnil] at hsync
      simp at hsync
      exact hp hsync
    have hsome : (get_proxy st prefer_fast rb ix).1.isSome := by
      unfold get_proxy
      rw [if_neg hp]
      dsimp only
      set avail0 := st.proxy_data.filter (fun p => !(st.bad_proxies.contains p.url))
        with havail0
      have hav : (if avail0 = [] then st.proxy_data else avail0) ≠ [] := by
        split
        · exact hpd
        · next hne => exact hne
      set avail := if avail0 = [] then st.proxy_data else avail0 with havail
      have htk : avail.take (max 1 (avail.length / 3)) ≠ [] := by
        have : (avail.take (max 1 (avail.length / 3))).length
            = min (max 1 (avail.length / 3)) avail.length := List.length_take _ _
        intro hnil
        rw [hnil] at this
        simp only [List.length_nil] at this
        have h1 : 1 ≤ max 1 (avail.length / 3) := Nat.le_max_left _ _
        have h2 : 1 ≤ avail.length := by
          have := List.length_pos.mpr hav
          omega
        omega
      cases prefer_fast with
      | false => simpa using pyChoice_isSome avail hav ix
      | true =>
          cases rb with
          | false => simpa using pyChoice_isSome avail hav ix
          | true => simpa using pyChoice_isSome _ htk ix
    refine ⟨⟨fun hnone => ?_, fun hemp => absurd hemp hp⟩, fun _ hallbad => ?_⟩
    · rw [hnone] at hsome
      simp at hsome
    · refine ⟨hsome, ?_⟩
      have hgp : (get_proxy st prefer_fast rb ix).2.bad_proxies
          = (if st.proxy_data.filter (fun p => !(st.bad_proxies.contains p.url))
              = [] then ([] : List String) else st.bad_proxies) := by
        unfold get_proxy
        rw [if_neg hp]
      rw [hgp, if_pos hallbad]

/-- C1 witness: a non-empty directory with its only endpoint quarantined
still yields a candidate, clears the quarantine set, and does not return
`None`. -/
theorem get_proxy_none_iff_witness :
    (({ exState with bad_proxies := ["socks5://9.9.9.9:1080"] } :
        ProxyState).proxies
      = ({ exState with bad_proxies := ["socks5://9.9.9.9:1080"] } :
          ProxyState).proxy_data.map (fun p => p.url)) ∧
    ((get_proxy { exState with bad_proxies := ["socks5://9.9.9.9:1080"] }
        true true 0).1 = none ↔
      ({ exState with bad_proxies := ["socks5://9.9.9.9:1080"] } :
        ProxyState).proxies = []) ∧
    (({ exState with bad_proxies := ["socks5://9.9.9.9:1080"] } :
        ProxyState).proxies ≠ [] →
      ({ exState with bad_proxies := ["socks5://9.9.9.9:1080"] } :
          ProxyState).proxy_data.filter
        (fun p => !((["socks5://9.9.9.9:1080"] : List String).contains p.url))
          = [] →
      ((get_proxy { exState with bad_proxies := ["socks5://9.9.9.9:1080"] }
          true true 0).1.isSome ∧
        (get_proxy { exState with bad_proxies := ["socks5://9.9.9.9:1080"] }
          true true 0).2.bad_proxies = [])) :=
  ⟨by decide,
   get_proxy_none_iff { exState with bad_proxies := ["socks5://9.9.9.9:1080"] }
     true true 0 (by decide)⟩

/-! ### Claim C6 -/

theorem saveProxiesToCsv_stats (st : ProxyState) (w : World) :
    (saveProxiesToCsv st w).1.stats = st.stats := by
  unfold saveProxiesToCsv
  split <;> rfl

theorem saveProxiesToCsv_bad (st : ProxyState) (w : World) :
    (saveProxiesToCsv st w).1.bad_proxies = st.bad_proxies := by
  unfold saveProxiesToCsv
  split <;> rfl

/-- The already-quarantined (or empty-URL) early return of
`mark_proxy_bad`. -/
theorem mark_proxy_bad_of_old (st : ProxyState) (w : World) (p : String)
    (hb : st.bad_proxies.contains p = true) :
    mark_proxy_bad st w p = (st, w, false) := by
  unfold mark_proxy_bad
  rw [if_pos (show
    (decide (p = "") || st.bad_proxies.contains p) = true by
    simp only [Bool.or_eq_true, decide_eq_true_eq]
    exact Or.inr hb)]

/-- The state `mark_proxy_bad` builds before deciding on persistence. -/
def markState (st : ProxyState) (p : String) : ProxyState :=
  { st with
    proxy_data :=
      if (st.proxy_data.find? (fun e => e.url == p)).isSome then
        updateFirstEntry p st.proxy_data
      else st.proxy_data
    bad_proxies := st.bad_proxies ++ [p]
    stats := { st.stats with
               proxies_marked_bad := st.stats.proxies_marked_bad + 1 } }

/-- The effective branch of `mark_proxy_bad`, as one equation. -/
theorem mark_proxy_bad_of_new (st : ProxyState) (w : World) (p : String)
    (hp : p ≠ "") (hb : st.bad_proxies.contains p = false) :
    mark_proxy_bad st w p =
      (match st.proxy_data.find? (fun e => e.url == p) with
       | some e =>
           if e.row.isSome then
             ((saveProxiesToCsv (markState st p) w).1,
              (saveProxiesToCsv (markState st p) w).2.1, true)
           else (markState st p, w, false)
       | none => (markState st p, w, false)) := by
  have hd : decide (p = "") = false := by simp [hp]
  unfold mark_proxy_bad markState
  rw [if_neg (show
    ¬ (decide (p = "") || st.bad_proxies.contains p) = true by
    simp only [Bool.or_eq_true, decide_eq_true_eq, hb]
    rintro (h1 | h2)
    · exact hp h1
    · cases h2)]

/-- After an effective mark, the built state's stats and quarantine list
survive the optional persistence step unchanged. -/
theorem mark_bad_state_fields (st : ProxyState) (w : World) (p : String)
    (hp : p ≠ "") (hb : st.bad_proxies.contains p = false) :
    (mark_proxy_bad st w p).1.stats = (markState st p).stats ∧
      (mark_proxy_bad st w p).1.bad_proxies = (markState st p).bad_proxies := by
  rw [mark_proxy_bad_of_new st w p hp hb]
  cases hfe : st.proxy_data.find? (fun e => e.url == p) with
  | none => exact ⟨rfl, rfl⟩
  | some e =>
      dsimp only
      cases hrow : e.row with
      | none => exact ⟨rfl, rfl⟩
      | some r =>
          exact ⟨saveProxiesToCsv_stats _ _, saveProxiesToCsv_bad _ _⟩

theorem mark_mem_bad (st : ProxyState) (w : World) (p : String) (hp : p ≠ "")
    (hb : st.bad_proxies.contains p = false) :
    (mark_proxy_bad st w p).1.bad_proxies.contains p = true := by
  rw [(mark_bad_state_fields st w p hp hb).2]
  unfold markState
  simp

/-- C6: `mark_proxy_bad` is idempotent — after one (effective) call, a
second call with the same endpoint is a complete no-op (same state, same
world, no persistence); the endpoint ends up in the quarantine set exactly
once, the proxies-marked-bad counter increments exactly once, and
persistence is triggered exactly when the first matching record has
catalogue provenance (a non-`None` raw row). -/
theorem mark_proxy_bad_idempotent (st : ProxyState) (w : World) (p : String)
    (hp : p ≠ "") (hb : st.bad_proxies.contains p = false) :
    mark_proxy_bad (mark_proxy_bad st w p).1 (mark_proxy_bad st w p).2.1 p
        = ((mark_proxy_bad st w p).1, (mark_proxy_bad st w p).2.1, false) ∧
      (mark_proxy_bad st w p).1.stats.proxies_marked_bad
        = st.stats.proxies_marked_bad + 1 ∧
      (mark_proxy_bad st w p).1.bad_proxies.count p = 1 ∧
      (mark_proxy_bad st w p).2.2
        = ((st.proxy_data.find? (fun e => e.url == p)).bind
            (fun e => e.row)).isSome := by
  refine ⟨mark_proxy_bad_of_old _ _ p (mark_mem_bad st w p hp hb), ?_, ?_, ?_⟩
  · rw [(mark_bad_state_fields st w p hp hb).1]
    rfl
  · rw [(mark_bad_state_fields st w p hp hb).2]
    have hnotmem : p ∉ st.bad_proxies := by simpa using hb
    have hcount0 : st.bad_proxies.count p = 0 := List.count_eq_zero.mpr hnotmem
    show (st.bad_proxies ++ [p]).count p = 1
    rw [List.count_append, hcount0]
    simp
  · rw [mark_proxy_bad_of_new st w p hp hb]
    cases hfe : st.proxy_data.find? (fun e => e.url == p) with
    | none => rfl
    | some e =>
        dsimp only
        cases hrow : e.row with
        | none => simp [hrow]
        | some r => simp [hrow]

/-- C6 witness: marking the sole (fallback-provenance) endpoint of
`exState` bad is idempotent, quarantines it once, bumps the counter once,
and does not persist (no catalogue row). -/
theorem mark_proxy_bad_idempotent_witness :
    ("socks5://9.9.9.9:1080" : String) ≠ "" ∧
      exState.bad_proxies.contains "socks5://9.9.9.9:1080" = false ∧
      (mark_proxy_bad (mark_proxy_bad exState ⟨none⟩ "socks5://9.9.9.9:1080").1
          (mark_proxy_bad exState ⟨none⟩ "socks5://9.9.9.9:1080").2.1
          "socks5://9.9.9.9:1080"
        = ((mark_proxy_bad exState ⟨none⟩ "socks5://9.9.9.9:1080").1,
           (mark_proxy_bad exState ⟨none⟩ "socks5://9.9.9.9:1080").2.1,
           false) ∧
       (mark_proxy_bad exState ⟨none⟩ "socks5://9.9.9.9:1080").1.stats.proxies_marked_bad = exState.stats.proxies_marked_bad + 1 ∧
       (mark_proxy_bad exState ⟨none⟩ "socks5://9.9.9.9:1080").1.bad_proxies.count "socks5://9.9.9.9:1080" = 1 ∧
       (mark_proxy_bad exState ⟨none⟩ "socks5://9.9.9.9:1080").2.2
        = ((exState.proxy_data.find?
              (fun e => e.url == "socks5://9.9.9.9:1080")).bind
            (fun e => e.row)).isSome) :=
  ⟨by decide, by decide,
   mark_proxy_bad_idempotent exState ⟨none⟩ "socks5://9.9.9.9:1080"
     (by decide) (by decide)⟩

/-! ### Claim C5 -/

theorem get_proxy_stats (st : ProxyState) (pf rb : Bool) (ix : Nat) :
    (get_proxy st pf rb ix).2.stats = st.stats := by
  unfold get_proxy
  split <;> rfl

/-- The early-return case of `mark_proxy_bad`, in terms of its guard. -/
theorem mark_proxy_bad_noop (st : ProxyState) (w : World) (p : String)
    (hg : (decide (p = "") || st.bad_proxies.contains p) = true) :
    mark_proxy_bad st w p = (st, w, false) := by
  unfold mark_proxy_bad
  rw [if_pos hg]

/-- `mark_proxy_bad` never touches the request counters (only the
bad-proxy counter). -/
theorem mark_proxy_bad_stats_tsf (st : ProxyState) (w : World) (p : String) :
    (mark_proxy_bad st w p).1.stats.total_requests
        = st.stats.total_requests ∧
      (mark_proxy_bad st w p).1.stats.successful_requests
        = st.stats.successful_requests ∧
      (mark_proxy_bad st w p).1.stats.failed_requests
        = st.stats.failed_requests := by
  by_cases hg : (decide (p = "") || st.bad_proxies.contains p) = true
  · rw [mark_proxy_bad_noop st w p hg]
    exact ⟨rfl, rfl, rfl⟩
  · have hp : p ≠ "" := by
      intro he
      exact hg (by simp [he])
    have hb : st.bad_proxies.contains p = false := by
      cases h : st.bad_proxies.contains p
      · rfl
      · exact absurd (by simp only [h, Bool.or_true]) hg
    rw [(mark_bad_state_fields st w p hp hb).1]
    exact ⟨rfl, rfl, rfl⟩

/-- The retry loop leaves the total-request counter alone, and increments
exactly the success counter (on a successful return) or exactly the
failure counter (on either `ProxyFailureError` raise). -/
theorem fetchLoop_counts (url : String) (net : Nat → String → HttpResult)
    (rand : Nat → Bool × Nat) (pf : Bool) (n a : Nat) (st : ProxyState)
    (w : World) :
    (fetchLoop url net rand pf a n st w).2.1.stats.total_requests
        = st.stats.total_requests ∧
      ((∃ b, (fetchLoop url net rand pf a n st w).1 = .success b) →
        (fetchLoop url net rand pf a n st w).2.1.stats.successful_requests
            = st.stats.successful_requests + 1 ∧
          (fetchLoop url net rand pf a n st w).2.1.stats.failed_requests
            = st.stats.failed_requests) ∧
      ((¬ ∃ b, (fetchLoop url net rand pf a n st w).1 = .success b) →
        (fetchLoop url net rand pf a n st w).2.1.stats.failed_requests
            = st.stats.failed_requests + 1 ∧
          (fetchLoop url net rand pf a n st w).2.1.stats.successful_requests
            = st.stats.successful_requests) := by
  induction n generalizing a st w with
  | zero =>
      refine ⟨rfl, ?_, ?_⟩
      · rintro ⟨b, hb⟩
        cases hb
      · intro _
        exact ⟨rfl, rfl⟩
  | succ n ih =>
      have hgs := get_proxy_stats st pf (rand a).1 (rand a).2
      simp only [fetchLoop]
      cases hg : (get_proxy st pf (rand a).1 (rand a).2).1 with
      | none =>
          refine ⟨?_, ?_, ?_⟩
          · show (incFailed _).stats.total_requests = _
            unfold incFailed
            rw [hgs]
          · rintro ⟨b, hb⟩
            cases hb
          · intro _
            constructor
            · show (incFailed _).stats.failed_requests = _
              unfold incFailed
              rw [hgs]
            · show (incFailed _).stats.successful_requests = _
              unfold incFailed
              rw [hgs]
      | some p =>
          dsimp only
          by_cases hpe : p = ""
          · rw [if_pos hpe]
            refine ⟨?_, ?_, ?_⟩
            · show (incFailed _).stats.total_requests = _
              unfold incFailed
              rw [hgs]
            · rintro ⟨b, hb⟩
              cases hb
            · intro _
              constructor
              · show (incFailed _).stats.failed_requests = _
                unfold incFailed
                rw [hgs]
              · show (incFailed _).stats.successful_requests = _
                unfold incFailed
                rw [hgs]
          · rw [if_neg hpe]
            have hms := mark_proxy_bad_stats_tsf
              (get_proxy st pf (rand a).1 (rand a).2).2 w p
            cases hnet : net a p with
            | transportError =>
                dsimp only
                have := ih (a + 1)
                  (mark_proxy_bad (get_proxy st pf (rand a).1 (rand a).2).2 w p).1
                  (mark_proxy_bad (get_proxy st pf (rand a).1 (rand a).2).2 w p).2.1
                refine ⟨?_, ?_, ?_⟩
                · rw [this.1, hms.1, hgs]
                · intro hb
                  rw [(this.2.1 hb).1, (this.2.1 hb).2, hms.2.1, hms.2.2, hgs]
                  exact ⟨rfl, rfl⟩
                · intro hb
                  rw [(this.2.2 hb).1, (this.2.2 hb).2, hms.2.2, hms.2.1, hgs]
                  exact ⟨rfl, rfl⟩
            | response status body =>
                dsimp only
                by_cases hs : status ≠ 200
                · rw [if_pos hs]
                  have := ih (a + 1)
                    (mark_proxy_bad (get_proxy st pf (rand a).1 (rand a).2).2 w p).1
                    (mark_proxy_bad (get_proxy st pf (rand a).1 (rand a).2).2 w p).2.1
                  refine ⟨?_, ?_, ?_⟩
                  · rw [this.1, hms.1, hgs]
                  · intro hb
                    rw [(this.2.1 hb).1, (this.2.1 hb).2, hms.2.1, hms.2.2, hgs]
                    exact ⟨rfl, rfl⟩
                  · intro hb
                    rw [(this.2.2 hb).1, (this.2.2 hb).2, hms.2.2, hms.2.1, hgs]
                    exact ⟨rfl, rfl⟩
                · rw [if_neg hs]
                  by_cases hblk : (isDuckDuckGoUrl url && is_search_blocked body)
                      = true
                  · rw [if_pos hblk]
                    have := ih (a + 1)
                      (mark_proxy_bad (get_proxy st pf (rand a).1 (rand a).2).2 w p).1
                      (mark_proxy_bad (get_proxy st pf (rand a).1 (rand a).2).2 w p).2.1
                    refine ⟨?_, ?_, ?_⟩
                    · rw [this.1, hms.1, hgs]
                    · intro hb
                      rw [(this.2.1 hb).1, (this.2.1 hb).2, hms.2.1, hms.2.2, hgs]
                      exact ⟨rfl, rfl⟩
                    · intro hb
                      rw [(this.2.2 hb).1, (this.2.2 hb).2, hms.2.2, hms.2.1, hgs]
                      exact ⟨rfl, rfl⟩
                  · rw [if_neg hblk]
                    refine ⟨?_, ?_, ?_⟩
                    · show (incSucc _).stats.total_requests = _
                      unfold incSucc
                      rw [hgs]
                    · intro _
                      constructor
                      · show (incSucc _).stats.successful_requests = _
                        unfold incSucc
                        rw [hgs]
                      · show (incSucc _).stats.failed_requests = _
                        unfold incSucc
                        rw [hgs]
                    · intro hb
                      exact absurd ⟨body, rfl⟩ hb

/-- C5: every `fetch` call increments the total-request counter exactly
once; on a successful return exactly the success counter increments, and
on either `ProxyFailureError` outcome exactly the failure counter
increments. -/
theorem fetch_counter_discipline (url : String)
    (net : Nat → String → HttpResult) (rand : Nat → Bool × Nat) (pf : Bool)
    (st : ProxyState) (w : World) :
    (fetch url net rand pf st w).2.1.stats.total_requests
        = st.stats.total_requests + 1 ∧
      ((∃ b, (fetch url net rand pf st w).1 = .success b) →
        (fetch url net rand pf st w).2.1.stats.successful_requests
            = st.stats.successful_requests + 1 ∧
          (fetch url net rand pf st w).2.1.stats.failed_requests
            = st.stats.failed_requests) ∧
      ((¬ ∃ b, (fetch url net rand pf st w).1 = .success b) →
        (fetch url net rand pf st w).2.1.stats.failed_requests
            = st.stats.failed_requests + 1 ∧
          (fetch url net rand pf st w).2.1.stats.successful_requests
            = st.stats.successful_requests) := by
  have h := fetchLoop_counts url net rand pf st.max_retries 0 (incTotal st) w
  unfold fetch
  exact ⟨h.1, h.2.1, h.2.2⟩

/-- C5 witness: a concrete successful fetch from zeroed counters ends with
total = 1, successes = 1, failures = 0. -/
theorem fetch_counter_discipline_witness :
    (fetch "http://t.example" (fun _ _ => .response 200 "ok")
        (fun _ => (true, 0)) true exState ⟨none⟩).1
        = .success "ok" ∧
      (fetch "http://t.example" (fun _ _ => .response 200 "ok")
        (fun _ => (true, 0)) true exState ⟨none⟩).2.1.stats.total_requests
        = exState.stats.total_requests + 1 ∧
      (fetch "http://t.example" (fun _ _ => .response 200 "ok")
        (fun _ => (true, 0)) true exState ⟨none⟩).2.1.stats.successful_requests
        = exState.stats.successful_requests + 1 ∧
      (fetch "http://t.example" (fun _ _ => .response 200 "ok")
        (fun _ => (true, 0)) true exState ⟨none⟩).2.1.stats.failed_requests
        = exState.stats.failed_requests :=
  ⟨by decide,
   (fetch_counter_discipline "http://t.example" (fun _ _ => .response 200 "ok")
      (fun _ => (true, 0)) true exState ⟨none⟩).1,
   ((fetch_counter_discipline "http://t.example" (fun _ _ => .response 200 "ok")
      (fun _ => (true, 0)) true exState ⟨none⟩).2.1 ⟨"ok", by decide⟩).1,
   ((fetch_counter_discipline "http://t.example" (fun _ _ => .response 200 "ok")
      (fun _ => (true, 0)) true exState ⟨none⟩).2.1 ⟨"ok", by decide⟩).2⟩

/-! ### Claims C2 and C3 -/

/-- After `mark_proxy_bad`, the endpoint is quarantined (whether or not it
already was). -/
theorem mark_mem_bad_any (st : ProxyState) (w : World) (p : String)
    (hp : p ≠ "") :
    (mark_proxy_bad st w p).1.bad_proxies.contains p = true := by
  cases hb : st.bad_proxies.contains p
  · exact mark_mem_bad st w p hp hb
  · rw [mark_proxy_bad_of_old st w p hb]
    exact hb

/-- C2 (amended: success requires status exactly 200, not any 2xx — the
source tests `r.status_code != 200`): inside an attempt that received a
response, status 200 with an unblocked (or non-DuckDuckGo) body returns
that body immediately with only the success counter bumped and no
quarantine; any other status quarantines the chosen endpoint and
continues with the next attempt. -/
theorem fetch_attempt_status_classification (url : String)
    (net : Nat → String → HttpResult) (rand : Nat → Bool × Nat) (pf : Bool)
    (a n : Nat) (st : ProxyState) (w : World) (p : String) (status : Nat)
    (body : String)
    (hp : (get_proxy st pf (rand a).1 (rand a).2).1 = some p) (hpe : p ≠ "")
    (hr : net a p = .response status body) :
    (status = 200 → (isDuckDuckGoUrl url && is_search_blocked body) = false →
      fetchLoop url net rand pf a (n + 1) st w
        = (.success body,
           incSucc (get_proxy st pf (rand a).1 (rand a).2).2, w)) ∧
    (status ≠ 200 →
      fetchLoop url net rand pf a (n + 1) st w
        = fetchLoop url net rand pf (a + 1) n
            (mark_proxy_bad (get_proxy st pf (rand a).1 (rand a).2).2 w p).1
            (mark_proxy_bad (get_proxy st pf (rand a).1 (rand a).2).2 w p).2.1
        ∧ (mark_proxy_bad
            (get_proxy st pf (rand a).1 (rand a).2).2 w p).1.bad_proxies.contains p
          = true) := by
  constructor
  · intro hs hblk
    simp only [fetchLoop, hp]
    rw [if_neg hpe, hr]
    dsimp only
    rw [if_neg (show ¬ status ≠ 200 from fun hc => hc hs)]
    rw [if_neg (show ¬ (isDuckDuckGoUrl url && is_search_blocked body) = true by
      rw [hblk]
      exact Bool.false_ne_true)]
  · intro hs
    refine ⟨?_, mark_mem_bad_any _ w p hpe⟩
    simp only [fetchLoop, hp]
    rw [if_neg hpe, hr]
    dsimp only
    rw [if_pos hs]

/-- C2 counterexample: a 2xx-but-not-200 response (HTTP 201) with a clean
body is not treated as a success — the fetch exhausts its retries, the
success counter stays at zero, and the endpoint is quarantined. -/
theorem fetch_2xx_not_success_cex :
    is_search_blocked "hello" = false ∧
      (fetch "http://t.example" (fun _ _ => .response 201 "hello")
        (fun _ => (true, 0)) true exState ⟨none⟩).1 = .exhausted ∧
      (fetch "http://t.example" (fun _ _ => .response 201 "hello")
        (fun _ => (true, 0)) true exState ⟨none⟩).2.1.stats.successful_requests
        = 0 ∧
      (fetch "http://t.example" (fun _ _ => .response 201 "hello")
        (fun _ => (true, 0)) true exState
          ⟨none⟩).2.1.bad_proxies.contains "socks5://9.9.9.9:1080" = true := by
  decide

/-- C2 witness: with a 200 unblocked response on the first attempt, the
fetch loop returns that body at once, bumping only the success counter. -/
theorem fetch_attempt_status_classification_witness :
    (get_proxy exState true true 0).1 = some "socks5://9.9.9.9:1080" ∧
      ("socks5://9.9.9.9:1080" : String) ≠ "" ∧
      (200 : Nat) = 200 ∧
      (isDuckDuckGoUrl "http://t.example" && is_search_blocked "ok") = false ∧
      fetchLoop "http://t.example" (fun _ _ => .response 200 "ok")
        (fun _ => (true, 0)) true 0 (2 + 1) exState ⟨none⟩
        = (.success "ok", incSucc (get_proxy exState true true 0).2, ⟨none⟩) :=
  ⟨by decide, by decide, rfl, by decide,
   (fetch_attempt_status_classification "http://t.example"
      (fun _ _ => .response 200 "ok") (fun _ => (true, 0)) true 0 2 exState
      ⟨none⟩ "socks5://9.9.9.9:1080" 200 "ok" (by decide) (by decide) rfl).1
     rfl (by decide)⟩

/-- C3 (amended: the block-signature check applies only to URLs containing
"duckduckgo.com" (case-insensitive); for any other URL a 200 response
whose body matches the block signatures is returned as a success): on a
DuckDuckGo URL, a 200 response with a blocked body quarantines the chosen
endpoint and continues with the next attempt instead of returning it. -/
theorem fetch_blocked_ddg_quarantine (url : String)
    (net : Nat → String → HttpResult) (rand : Nat → Bool × Nat) (pf : Bool)
    (a n : Nat) (st : ProxyState) (w : World) (p : String) (body : String)
    (hp : (get_proxy st pf (rand a).1 (rand a).2).1 = some p) (hpe : p ≠ "")
    (hr : net a p = .response 200 body)
    (hddg : isDuckDuckGoUrl url = true)
    (hblk : is_search_blocked body = true) :
    fetchLoop url net rand pf a (n + 1) st w
        = fetchLoop url net rand pf (a + 1) n
            (mark_proxy_bad (get_proxy st pf (rand a).1 (rand a).2).2 w p).1
            (mark_proxy_bad (get_proxy st pf (rand a).1 (rand a).2).2 w p).2.1
      ∧ (mark_proxy_bad
          (get_proxy st pf (rand a).1 (rand a).2).2 w p).1.bad_proxies.contains p
        = true := by
  refine ⟨?_, mark_mem_bad_any _ w p hpe⟩
  simp only [fetchLoop, hp]
  rw [if_neg hpe, hr]
  dsimp only
  rw [if_neg (show ¬ (200 : Nat) ≠ 200 from fun hc => hc rfl)]
  rw [if_pos (show (isDuckDuckGoUrl url && is_search_blocked body) = true by
    rw [hddg, hblk]
    rfl)]

/-- C3 counterexample: on a non-DuckDuckGo URL, a 200 response whose body
matches the block-signature set is returned as a success with no
quarantine, contradicting the claim's "for every URL". -/
theorem fetch_blocked_nonddg_cex :
    is_search_blocked "please complete the following challenge" = true ∧
      isDuckDuckGoUrl "http://blog.example" = false ∧
      (fetch "http://blog.example"
        (fun _ _ => .response 200 "please complete the following challenge")
        (fun _ => (true, 0)) true exState ⟨none⟩).1
        = .success "please complete the following challenge" ∧
      (fetch "http://blog.example"
        (fun _ _ => .response 200 "please complete the following challenge")
        (fun _ => (true, 0)) true exState ⟨none⟩).2.1.bad_proxies = [] := by
  decide

/-- C3 witness: on a DuckDuckGo URL, a 200 response with a block-signature
body is quarantined and the loop continues. -/
theorem fetch_blocked_ddg_quarantine_witness :
    (get_proxy exState true true 0).1 = some "socks5://9.9.9.9:1080" ∧
      ("socks5://9.9.9.9:1080" : String) ≠ "" ∧
      isDuckDuckGoUrl "https://duckduckgo.com/html/?q=x" = true ∧
      is_search_blocked "captcha" = true ∧
      (fetchLoop "https://duckduckgo.com/html/?q=x"
          (fun _ _ => .response 200 "captcha") (fun _ => (true, 0)) true 0
          (2 + 1) exState ⟨none⟩
        = fetchLoop "https://duckduckgo.com/html/?q=x"
            (fun _ _ => .response 200 "captcha") (fun _ => (true, 0)) true 1 2
            (mark_proxy_bad (get_proxy exState true true 0).2 ⟨none⟩
              "socks5://9.9.9.9:1080").1
            (mark_proxy_bad (get_proxy exState true true 0).2 ⟨none⟩
              "socks5://9.9.9.9:1080").2.1
        ∧ (mark_proxy_bad (get_proxy exState true true 0).2 ⟨none⟩
            "socks5://9.9.9.9:1080").1.bad_proxies.contains
              "socks5://9.9.9.9:1080" = true) :=
  ⟨by decide, by decide, by decide, by decide,
   fetch_blocked_ddg_quarantine "https://duckduckgo.com/html/?q=x"
     (fun _ _ => .response 200 "captcha") (fun _ => (true, 0)) true 0 2 exState
     ⟨none⟩ "socks5://9.9.9.9:1080" "captcha" (by decide) (by decide) rfl
     (by decide) (by decide)⟩

/-! ### Claim C7 -/

/-- Every entry the row-reading loop produces comes from an eligible row,
with its parsed latency, exactly as `entryOfRow` builds it. -/
theorem readEntries_mem : ∀ (rows : List Row) (l : List Entry),
    readEntries rows = some l → ∀ e ∈ l,
      ∃ r, e.row = some r ∧ rowEligible r = true ∧
        rowLatency? r = some e.response_time_ms ∧
        e = entryOfRow r e.response_time_ms := by
  intro rows
  induction rows with
  | nil =>
      intro l hl e he
      rw [readEntries] at hl
      injection hl with hl
      rw [← hl] at he
      cases he
  | cons r rs ih =>
      intro l hl e he
      rw [readEntries] at hl
      by_cases her : rowEligible r = true
      · rw [if_pos her] at hl
        cases hq : rowLatency? r with
        | none =>
            rw [hq] at hl
            cases hl
        | some q =>
            rw [hq] at hl
            cases hrs : readEntries rs with
            | none =>
                rw [hrs] at hl
                cases hl
            | some l' =>
                rw [hrs] at hl
                simp only [Option.map_some'] at hl
                injection hl with hl
                rw [← hl] at he
                rcases List.mem_cons.mp he with he | he
                · subst he
                  exact ⟨r, rfl, her, hq, rfl⟩
                · exact ih l' hrs e he
      · rw [if_neg her] at hl
        exact ih l hl e he

theorem fallbackEntries_ne_nil : fallbackEntries ≠ [] := by decide

theorem fallbackEntries_sorted : List.Sorted latLe fallbackEntries := by
  have h : List.Pairwise (fun a b : Entry =>
      a.response_time_ms ≤ b.response_time_ms) fallbackEntries := by decide
  exact h

theorem fallbackEntries_rows : ∀ x ∈ fallbackEntries, x.row = none := by
  decide

/-- C7: for any catalogue with at least one `status = working` row,
`_load_proxies` yields a non-empty directory, sorted ascending by latency,
whose catalogue-provenance entries all come from eligible rows (status
`working` with host and port present); malformed rows are skipped, and
every failure path degrades to the (non-empty, all-zero-latency) fallback
list rather than raising. -/
theorem load_nonempty_sorted_eligible (cat : List Row)
    (hw : ∃ r ∈ cat, r.status = some "working") :
    loadProxies (some cat) ≠ [] ∧
      List.Sorted latLe (loadProxies (some cat)) ∧
      ∀ e ∈ loadProxies (some cat), ∀ r, e.row = some r →
        rowEligible r = true := by
  have hfall : ∀ e ∈ fallbackEntries, ∀ r : Row, e.row = some r →
      rowEligible r = true := by
    intro e he r hr
    rw [fallbackEntries_rows e he] at hr
    cases hr
  unfold loadProxies
  dsimp only
  cases hre : readEntries cat with
  | none =>
      exact ⟨fallbackEntries_ne_nil, fallbackEntries_sorted, hfall⟩
  | some l =>
      cases l with
      | nil => exact ⟨fallbackEntries_ne_nil, fallbackEntries_sorted, hfall⟩
      | cons x xs =>
          dsimp only
          refine ⟨?_, ?_, ?_⟩
          · intro hnil
            have hlen := (List.perm_insertionSort latLe (x :: xs)).length_eq
            rw [hnil] at hlen
            simp at hlen
          · exact List.sorted_insertionSort latLe (x :: xs)
          · intro e he r hr
            have hmem : e ∈ x :: xs :=
              (List.perm_insertionSort latLe (x :: xs)).mem_iff.mp he
            obtain ⟨r', hrow, helig, _, _⟩ :=
              readEntries_mem cat (x :: xs) hre e hmem
            rw [hrow] at hr
            injection hr with hr
            rw [← hr]
            exact helig

/-- C7 witness: a two-row catalogue (latencies 50 and 10, both `working`)
loads non-empty, sorted ascending by latency, with only eligible rows. -/
theorem load_nonempty_sorted_eligible_witness :
    (∃ r ∈ [exRow1, exRow2], r.status = some "working") ∧
      (loadProxies (some [exRow1, exRow2]) ≠ [] ∧
        List.Sorted latLe (loadProxies (some [exRow1, exRow2])) ∧
        ∀ e ∈ loadProxies (some [exRow1, exRow2]), ∀ r, e.row = some r →
          rowEligible r = true) :=
  ⟨⟨exRow1, by decide, by decide⟩,
   load_nonempty_sorted_eligible [exRow1, exRow2]
     ⟨exRow1, by decide, by decide⟩⟩

/-! ### Claim C8 -/

/-- An entry as `readEntries` produces it: built by `entryOfRow` from an
eligible catalogue row with its parsed latency. -/
def entryFromRow (x : Entry) : Prop :=
  ∃ r, x.row = some r ∧ rowEligible r = true ∧
    rowLatency? r = some x.response_time_ms ∧
    x = entryOfRow r x.response_time_ms

theorem entryFromRow_url_ne (x : Entry) (hx : entryFromRow x) :
    x.url ≠ "" := by
  obtain ⟨r, _, _, _, hxe⟩ := hx
  intro h
  have hlen : x.url.length = 0 := by
    rw [h]
    rfl
  rw [hxe] at hlen
  have : ("socks5://" ++ rowIp r ++ ":" ++ rowPort r).length
      = 9 + (rowIp r).length + 1 + (rowPort r).length := by
    rw [String.length_append, String.length_append, String.length_append]
    rfl
  rw [show (entryOfRow r x.response_time_ms).url
      = "socks5://" ++ rowIp r ++ ":" ++ rowPort r from rfl] at hlen
  rw [this] at hlen
  omega

theorem entryFromRow_row_isSome (x : Entry) (hx : entryFromRow x) :
    x.row.isSome = true := by
  obtain ⟨r, hr, _, _, _⟩ := hx
  rw [hr]
  rfl

theorem loadProxies_eq_sort (cat : List Row) (x : Entry) (xs : List Entry)
    (hread : readEntries cat = some (x :: xs)) :
    loadProxies (some cat) = (x :: xs).insertionSort latLe := by
  unfold loadProxies
  dsimp only
  rw [hread]

theorem find?_url_self : ∀ (pd : List Entry) (e : Entry), e ∈ pd →
    ((pd.map (fun p => p.url)).Nodup) →
    pd.find? (fun z => z.url == e.url) = some e := by
  intro pd
  induction pd with
  | nil =>
      intro e he
      cases he
  | cons y rest ih =>
      intro e he hnodup
      rw [List.map_cons, List.nodup_cons] at hnodup
      obtain ⟨hynotin, hnodup'⟩ := hnodup
      by_cases hy : y.url = e.url
      · have hee : e = y := by
          rcases List.mem_cons.mp he with h | h
          · exact h
          · exact absurd (hy ▸ List.mem_map_of_mem (fun p => p.url) h)
              hynotin
        rw [hee]
        exact List.find?_cons_of_pos _ (by simp)
      · have he' : e ∈ rest := by
          rcases List.mem_cons.mp he with h | h
          · exact absurd (h ▸ rfl) hy
          · exact h
        rw [List.find?_cons_of_neg, ih e he' hnodup']
        simp [hy]

theorem applySaveStatus_id (bad : List String) : ∀ (l : List Entry),
    (∀ y ∈ l, bad.contains y.url = false) → applySaveStatus bad l = l := by
  intro l
  induction l with
  | nil =>
      intro _
      rfl
  | cons y rest ih =>
      intro h
      show (if y.row.isSome && bad.contains y.url then _ else y)
          :: applySaveStatus bad rest = y :: rest
      rw [h y (List.mem_cons_self y rest), Bool.and_false,
        if_neg (by simp), ih (fun z hz => h z (List.mem_cons_of_mem y hz))]

theorem readEntries_filterMap_id : ∀ (l : List Entry),
    (∀ y ∈ l, entryFromRow y) →
    readEntries (l.filterMap (fun p => p.row)) = some l := by
  intro l
  induction l with
  | nil =>
      intro _
      rfl
  | cons x rest ih =>
      intro hP
      obtain ⟨r, hrow, helig, hlat, hxe⟩ := hP x (List.mem_cons_self x rest)
      rw [List.filterMap_cons, hrow]
      rw [readEntries, if_pos helig, hlat,
        ih (fun z hz => hP z (List.mem_cons_of_mem x hz))]
      dsimp only
      rw [Option.map_some']
      rw [← hxe]

theorem updateFirstEntry_length (u : String) : ∀ (l : List Entry),
    (updateFirstEntry u l).length = l.length := by
  intro l
  induction l with
  | nil => rfl
  | cons y rest ih =>
      rw [updateFirstEntry]
      split
      · rfl
      · rw [List.length_cons, List.length_cons, ih]

theorem updateFirstEntry_rows (u : String) : ∀ (l : List Entry),
    (∀ y ∈ l, y.row.isSome = true) →
    ∀ y ∈ updateFirstEntry u l, y.row.isSome = true := by
  intro l
  induction l with
  | nil =>
      intro _ y hy
      cases hy
  | cons z rest ih =>
      intro h y hy
      rw [updateFirstEntry] at hy
      split at hy
      · rcases List.mem_cons.mp hy with hh | hh
        · have hz := h z (List.mem_cons_self z rest)
          rw [hh]
          cases hzr : z.row with
          | none =>
              rw [hzr] at hz
              cases hz
          | some r => simp [hzr]
        · exact h y (List.mem_cons_of_mem z hh)
      · rcases List.mem_cons.mp hy with hh | hh
        · rw [hh]
          exact h z (List.mem_cons_self z rest)
        · exact ih (fun w hw => h w (List.mem_cons_of_mem z hw)) y hh

/-- The marked row (`status := failed`) is ineligible on reload. -/
theorem rowEligible_failed (r : Row) :
    rowEligible { r with status := some "failed" } = false := by
  have hs : rowStatus { r with status := some "failed" } = "failed" := rfl
  unfold rowEligible
  rw [hs]
  have : (("failed" : String) == "working") = false := by decide
  rw [this]
  simp

/-- One step of the status-overwrite map in `_save_proxies_to_csv`. -/
theorem applySaveStatus_cons (bad : List String) (y : Entry) (l : List Entry) :
    applySaveStatus bad (y :: l)
      = (if y.row.isSome && bad.contains y.url then
          { y with status := "failed", row := y.row.map (fun r => { r with status := some "failed" }) }
        else y) :: applySaveStatus bad l := rfl

/-- Core of the persistence round-trip: writing the directory after the
first entry with URL `u` was marked failed, then re-reading the written
rows, reproduces exactly the entries whose URL differs from `u`. -/
theorem readEntries_roundtrip (u : String) : ∀ (l : List Entry),
    (∀ y ∈ l, entryFromRow y) → ((l.map (fun p => p.url)).Nodup) →
    readEntries ((applySaveStatus [u] (updateFirstEntry u l)).filterMap
        (fun p => p.row))
      = some (l.filter (fun y => !(y.url == u))) := by
  intro l
  induction l with
  | nil =>
      intro _ _
      rfl
  | cons x rest ih =>
      intro hP hnodup
      obtain ⟨r, hrow, helig, hlat, hxe⟩ := hP x (List.mem_cons_self x rest)
      rw [List.map_cons, List.nodup_cons] at hnodup
      obtain ⟨hxnotin, hnodup'⟩ := hnodup
      have hPrest : ∀ y ∈ rest, entryFromRow y :=
        fun z hz => hP z (List.mem_cons_of_mem x hz)
      by_cases hxu : x.url = u
      · have hrestu : ∀ y ∈ rest, ([u].contains y.url) = false := by
          intro y hy
          have hne : y.url ≠ u := by
            intro he
            exact hxnotin
              (hxu ▸ he ▸ List.mem_map_of_mem (fun p => p.url) hy)
          simp [hne]
        have hcontains : ([u].contains x.url) = true := by
          simp [hxu]
        rw [updateFirstEntry, if_pos hxu, applySaveStatus_cons, hrow,
          applySaveStatus_id [u] rest hrestu]
        simp only [Option.map_some', Option.isSome_some, Bool.true_and]
        have hcond2 : ([u].contains
            ({ x with status := "failed", row := some { r with status := some "failed" } } : Entry).url)
              = true := hcontains
        rw [if_pos hcond2]
        rw [List.filterMap_cons]
        dsimp only
        rw [readEntries, if_neg (by rw [rowEligible_failed r]; simp)]
        rw [readEntries_filterMap_id rest hPrest]
        rw [List.filter_cons]
        rw [show (!(x.url == u)) = false from by simp [hxu]]
        rw [if_neg (by simp)]
        rw [List.filter_eq_self.mpr]
        intro y hy
        have hne : y.url ≠ u := by
          intro he
          exact hxnotin
            (hxu ▸ he ▸ List.mem_map_of_mem (fun p => p.url) hy)
        simp [hne]
      · have hcontains : ([u].contains x.url) = false := by
          simp [hxu]
        rw [updateFirstEntry, if_neg hxu, applySaveStatus_cons]
        rw [show (x.row.isSome && ([u].contains x.url)) = false from by
          rw [hcontains, Bool.and_false]]
        rw [if_neg (by simp)]
        rw [List.filterMap_cons, hrow]
        dsimp only
        rw [readEntries, if_pos helig, hlat, ih hPrest hnodup']
        dsimp only
        rw [Option.map_some']
        rw [List.filter_cons]
        rw [show (!(x.url == u)) = true from by simp [hxu]]
        rw [if_pos rfl, ← hxe]

/-- `_load_proxies` through an already-read row list: empty degrades to
fallback, otherwise sorted. -/
theorem loadProxies_of_read (rows : List Row) (l : List Entry)
    (h : readEntries rows = some l) :
    loadProxies (some rows)
      = if l = [] then fallbackEntries else l.insertionSort latLe := by
  unfold loadProxies
  dsimp only
  rw [h]
  cases l with
  | nil => rw [if_pos rfl]
  | cons a as =>
      rw [if_neg (by simp)]

/-- C8: starting from a directory loaded from a catalogue, marking one
record bad persists (the record has catalogue provenance), and reloading
yields a directory whose catalogue-provenance entries are exactly the
previous ones minus the marked record, each unchanged and in the same
order; and a directory holding only fallback-sourced records is never
written back. -/
theorem persist_reload_roundtrip (cat : List Row) (x : Entry) (xs : List Entry)
    (k : Nat) (e : Entry)
    (hread : readEntries cat = some (x :: xs))
    (hmem : e ∈ (initManager k (some cat)).proxy_data)
    (hnodup : ((initManager k (some cat)).proxy_data.map
        (fun p => p.url)).Nodup) :
    (mark_proxy_bad (initManager k (some cat)) ⟨some cat⟩ e.url).2.2 = true ∧
      (reload_proxies
          (mark_proxy_bad (initManager k (some cat)) ⟨some cat⟩ e.url).1
          (mark_proxy_bad (initManager k (some cat)) ⟨some cat⟩
            e.url).2.1).proxy_data.filter (fun p => p.row.isSome)
        = (initManager k (some cat)).proxy_data.filter
            (fun p => !(p.url == e.url)) ∧
      ∀ (st' : ProxyState) (w' : World),
        (∀ y ∈ st'.proxy_data, y.row = none) →
          saveProxiesToCsv st' w' = (st', w', false) := by
  have hpd : (initManager k (some cat)).proxy_data = loadProxies (some cat) :=
    rfl
  have hsort : loadProxies (some cat) = (x :: xs).insertionSort latLe :=
    loadProxies_eq_sort cat x xs hread
  have hP : ∀ y ∈ loadProxies (some cat), entryFromRow y := by
    intro y hy
    rw [hsort] at hy
    exact readEntries_mem cat (x :: xs) hread y
      ((List.perm_insertionSort latLe (x :: xs)).mem_iff.mp hy)
  have hPe : entryFromRow e := hP e hmem
  have hne : e.url ≠ "" := entryFromRow_url_ne e hPe
  have hb0 : (initManager k (some cat)).bad_proxies.contains e.url = false :=
    rfl
  have hfind : (initManager k (some cat)).proxy_data.find?
      (fun z => z.url == e.url) = some e :=
    find?_url_self _ e hmem hnodup
  obtain ⟨re, hrowe, _, _, _⟩ := hPe
  have hms : markState (initManager k (some cat)) e.url
      = { max_retries := k, proxy_data := updateFirstEntry e.url (loadProxies (some cat)), proxies := (loadProxies (some cat)).map (fun p => p.url), bad_proxies := [e.url], stats := ⟨0, 0, 0, 1⟩ } := by
    unfold markState
    rw [hfind]
    rfl
  have hmark : mark_proxy_bad (initManager k (some cat)) ⟨some cat⟩ e.url
      = ((saveProxiesToCsv { max_retries := k, proxy_data := updateFirstEntry e.url (loadProxies (some cat)), proxies := (loadProxies (some cat)).map (fun p => p.url), bad_proxies := [e.url], stats := ⟨0, 0, 0, 1⟩ } ⟨some cat⟩).1,
         (saveProxiesToCsv { max_retries := k, proxy_data := updateFirstEntry e.url (loadProxies (some cat)), proxies := (loadProxies (some cat)).map (fun p => p.url), bad_proxies := [e.url], stats := ⟨0, 0, 0, 1⟩ } ⟨some cat⟩).2.1,
         true) := by
    rw [mark_proxy_bad_of_new _ _ _ hne hb0, hfind]
    dsimp only
    rw [if_pos (show e.row.isSome = true from by rw [hrowe]; rfl)]
    rw [hms]
  have hall : ∀ y ∈ updateFirstEntry e.url (loadProxies (some cat)),
      y.row.isSome = true :=
    updateFirstEntry_rows e.url _
      (fun y hy => entryFromRow_row_isSome y (hP y hy))
  have hguard : ¬ ((updateFirstEntry e.url
      (loadProxies (some cat))).filter (fun p => p.row.isSome) = []) := by
    rw [List.filter_eq_self.mpr hall]
    intro hnil
    have hlen := updateFirstEntry_length e.url (loadProxies (some cat))
    rw [hnil, hsort] at hlen
    have hperm := (List.perm_insertionSort latLe (x :: xs)).length_eq
    rw [← hlen] at hperm
    simp at hperm
  have hsave : saveProxiesToCsv { max_retries := k, proxy_data := updateFirstEntry e.url (loadProxies (some cat)), proxies := (loadProxies (some cat)).map (fun p => p.url), bad_proxies := [e.url], stats := ⟨0, 0, 0, 1⟩ } ⟨some cat⟩
      = ({ max_retries := k, proxy_data := applySaveStatus [e.url] (updateFirstEntry e.url (loadProxies (some cat))), proxies := (loadProxies (some cat)).map (fun p => p.url), bad_proxies := [e.url], stats := ⟨0, 0, 0, 1⟩ },
         ⟨some ((applySaveStatus [e.url] (updateFirstEntry e.url (loadProxies (some cat)))).filterMap (fun p => p.row))⟩,
         true) := by
    unfold saveProxiesToCsv
    rw [if_neg hguard]
  have hL3 := readEntries_roundtrip e.url (loadProxies (some cat))
    (fun y hy => hP y hy) hnodup
  refine ⟨?_, ?_, ?_⟩
  · rw [hmark]
  · rw [hmark, hsave]
    unfold reload_proxies
    dsimp only
    rw [hpd]
    rw [loadProxies_of_read _ _ hL3]
    cases hflt : (loadProxies (some cat)).filter
        (fun y => !(y.url == e.url)) with
    | nil =>
        rw [if_pos rfl]
        decide
    | cons f fs =>
        rw [if_neg (by simp)]
        have hsorted : List.Sorted latLe
            ((loadProxies (some cat)).filter (fun y => !(y.url == e.url))) := by
          rw [hsort]
          exact (List.sorted_insertionSort latLe (x :: xs)).filter _
        rw [hflt] at hsorted
        rw [hsorted.insertionSort_eq]
        rw [List.filter_eq_self.mpr]
        intro y hy
        have hy' : y ∈ loadProxies (some cat) :=
          List.mem_of_mem_filter (hflt ▸ hy)
        exact entryFromRow_row_isSome y (hP y hy')
  · intro st' w' hfb
    unfold saveProxiesToCsv
    rw [if_pos (List.filter_eq_nil_iff.mpr
      (fun y hy => by rw [hfb y hy]; simp))]

/-- C8 witness: a two-row catalogue, marking the faster record bad,
persists and reloading leaves exactly the other record eligible. -/
theorem persist_reload_roundtrip_witness :
    readEntries [exRow1, exRow2]
        = some [entryOfRow exRow1 50, entryOfRow exRow2 10] ∧
      (entryOfRow exRow2 10)
        ∈ (initManager 3 (some [exRow1, exRow2])).proxy_data ∧
      ((initManager 3 (some [exRow1, exRow2])).proxy_data.map
        (fun p => p.url)).Nodup ∧
      ((mark_proxy_bad (initManager 3 (some [exRow1, exRow2]))
          ⟨some [exRow1, exRow2]⟩ (entryOfRow exRow2 10).url).2.2 = true ∧
        (reload_proxies
            (mark_proxy_bad (initManager 3 (some [exRow1, exRow2]))
              ⟨some [exRow1, exRow2]⟩ (entryOfRow exRow2 10).url).1
            (mark_proxy_bad (initManager 3 (some [exRow1, exRow2]))
              ⟨some [exRow1, exRow2]⟩
                (entryOfRow exRow2 10).url).2.1).proxy_data.filter
          (fun p => p.row.isSome)
          = (initManager 3 (some [exRow1, exRow2])).proxy_data.filter
              (fun p => !(p.url == (entryOfRow exRow2 10).url)) ∧
        ∀ (st' : ProxyState) (w' : World),
          (∀ y ∈ st'.proxy_data, y.row = none) →
            saveProxiesToCsv st' w' = (st', w', false)) :=
  ⟨by decide, by decide, by decide,
   persist_reload_roundtrip [exRow1, exRow2] (entryOfRow exRow1 50)
     [entryOfRow exRow2 10] 3 (entryOfRow exRow2 10) (by decide) (by decide)
     (by decide)⟩
